import Mathlib

/-!
Verification of the Test Run Orchestrator of the Jumpchain-Nexus desktop
shell (`src/apps/desktop/src-tauri/src/lib.rs`), as a shallow embedding.

Modelling conventions, stated once here:

* Messages and lines are modelled as `List Char`; raw process output is a
  `List Nat` of byte values.  Rust's `String::from_utf8` is embedded as a
  faithful UTF-8 decoder (`utf8Decode`) implementing the RFC 3629
  validation Rust performs (continuation-byte ranges, overlong-encoding
  and surrogate rejection, four-byte upper bound).
* Filesystem paths are modelled abstractly as lists of path components in
  innermost-first order, so `PathBuf::parent` is `List.tail` and returns
  "no parent" exactly on the empty list.  The filesystem itself is a
  function `fs : DirPath → Bool` telling whether `dir/package.json`
  is a file.
* The Tauri pieces are modelled by their observable effects: emitting on
  the `devtools://test-run` channel becomes an accumulated
  `List TestRunPayload`; the mutex-guarded `Option<CommandChild>` slot
  becomes an `Option Nat` threaded through the operations (mutex
  poisoning, which only arises from a panicking thread, is not modelled);
  `command.spawn()` and `child.kill()` become `Except String _` oracles
  supplied as parameters.
* Straight-line lock/IO ordering inside `run_full_test_suite` and
  `cancel_full_test_suite`, which the functional embedding flattens, is
  additionally recorded as operation traces (`startRunTrace`,
  `cancelRunTrace`) transcribed from the statement order of the source.
-/

/-- Embeds `enum LogLevel` (lib.rs lines 33-39). -/
inductive LogLevel
  | info
  | warn
  | error
deriving DecidableEq

/-- Embeds `enum LogSource` (lib.rs lines 41-46). -/
inductive LogSource
  | stdout
  | stderr
deriving DecidableEq

/-- Embeds `enum TestRunPayload` (lib.rs lines 48-63): the wire-level union
emitted on the `devtools://test-run` channel. -/
inductive TestRunPayload
  | started
  | log (level : LogLevel) (message : List Char) (source : LogSource)
  | terminated (code : Option Int)
  | error (message : List Char)
deriving DecidableEq

/-- Embeds `tauri_plugin_shell::process::CommandEvent`, the stream consumed
by the spawned task (lib.rs lines 256-295).  `other` stands for the
`_ => {}` wildcard arm. -/
inductive CommandEvent
  | stdout (line : List Nat)
  | stderr (line : List Nat)
  | terminated (code : Option Int)
  | error (message : List Char)
  | other
deriving DecidableEq

/-- Rust's `u8::to_ascii_uppercase` on chars: maps `a`-`z` to `A`-`Z` and
leaves every other character unchanged (lib.rs line 114). -/
def asciiUpper (c : Char) : Char :=
  if 'a' ≤ c ∧ c ≤ 'z' then Char.ofNat (c.toNat - 32) else c

/-- Rust's `str::contains(&str)`: whether `needle` occurs as a contiguous
subsequence of `hay`. -/
def containsSeq : List Char → List Char → Bool
  | [], needle => needle.isEmpty
  | h :: t, needle => needle.isPrefixOf (h :: t) || containsSeq t needle

/-- Embeds `classify_level` (lib.rs lines 109-122). -/
def classify_level (source : LogSource) (message : List Char) : LogLevel :=
  match source with
  | LogSource.stderr => LogLevel.error
  | LogSource.stdout =>
    let upper := message.map asciiUpper
    if containsSeq upper (("FAIL").toList) || containsSeq upper (("ERROR").toList) then
      LogLevel.error
    else if containsSeq upper (("WARN").toList) then
      LogLevel.warn
    else
      LogLevel.info

/-- Decoder state of the UTF-8 validator: `none` between scalar values,
`some (remaining, value, lo, hi)` inside a multi-byte sequence, where
`remaining` continuation bytes are still expected, `value` is the scalar
value collected so far, and `lo`-`hi` is the admissible range of the next
byte.  The range of the first continuation byte is tightened per leading
byte to reject overlong encodings (`0xE0`, `0xF0`), surrogates (`0xED`)
and values above `U+10FFFF` (`0xF4`), exactly the validation Rust's
`String::from_utf8` performs. -/
abbrev Utf8State := Option (Nat × Nat × Nat × Nat)

/-- One-byte-at-a-time UTF-8 decoding loop (see `Utf8State`). -/
def utf8Go : Utf8State → List Nat → Option (List Char)
  | none, [] => some []
  | some _, [] => none
  | none, b :: rest =>
    if b ≤ 0x7F then (utf8Go none rest).map (fun cs => Char.ofNat b :: cs)
    else if b ≤ 0xC1 then none
    else if b ≤ 0xDF then utf8Go (some (1, b - 0xC0, 0x80, 0xBF)) rest
    else if b = 0xE0 then utf8Go (some (2, 0, 0xA0, 0xBF)) rest
    else if b = 0xED then utf8Go (some (2, 13, 0x80, 0x9F)) rest
    else if b ≤ 0xEF then utf8Go (some (2, b - 0xE0, 0x80, 0xBF)) rest
    else if b = 0xF0 then utf8Go (some (3, 0, 0x90, 0xBF)) rest
    else if b = 0xF4 then utf8Go (some (3, 4, 0x80, 0x8F)) rest
    else if b ≤ 0xF3 then utf8Go (some (3, b - 0xF0, 0x80, 0xBF)) rest
    else none
  | some (remaining, value, lo, hi), b :: rest =>
    if lo ≤ b ∧ b ≤ hi then
      if remaining ≤ 1 then
        (utf8Go none rest).map (fun cs => Char.ofNat (value * 64 + (b - 0x80)) :: cs)
      else
        utf8Go (some (remaining - 1, value * 64 + (b - 0x80), 0x80, 0xBF)) rest
    else none

/-- Embeds Rust's `String::from_utf8` (lib.rs line 100): decodes a byte
sequence, returning `none` exactly when it is not valid UTF-8. -/
def utf8Decode (bytes : List Nat) : Option (List Char) :=
  utf8Go none bytes

/-- Rust's `str::trim_end_matches(['\r', '\n'])` (lib.rs line 101):
removes every trailing carriage return or line feed. -/
def trimEndCRLF (s : List Char) : List Char :=
  (s.reverse.dropWhile (fun c => c = '\r' || c = '\n')).reverse

/-- Embeds `sanitize_line` (lib.rs lines 99-107). -/
def sanitize_line (bytes : List Nat) : Option (List Char) :=
  match utf8Decode bytes with
  | none => none
  | some text =>
    let cleaned := trimEndCRLF text
    if cleaned = [] then none else some cleaned

/-- A directory path, as its components in innermost-first order; the
parent of `x :: xs` is `xs` and the root `[]` has no parent, mirroring
`PathBuf::parent` returning `None` at the top (lib.rs lines 145-162). -/
abbrev DirPath := List String

/-- The chain of directories visited by walking from `d` up through its
parents to the root (both ends included). -/
def upChain : DirPath → List DirPath
  | [] => [[]]
  | x :: xs => (x :: xs) :: upChain xs

/-- Embeds the inner `loop` of `locate_workspace_dir` (lib.rs lines
143-163) for one starting candidate: an already-visited directory is
skipped without a filesystem probe and the walk moves to its parent;
otherwise the directory is recorded as visited and probed for
`package.json`, and on failure the walk moves to the parent, stopping at
a directory with no parent.  Returns the found directory (if any) and the
updated visited set. -/
def walkFrom (fs : DirPath → Bool) (visited : List DirPath) :
    DirPath → Option DirPath × List DirPath
  | [] =>
    if [] ∈ visited then (none, visited)
    else if fs [] then (some [], [] :: visited)
    else (none, [] :: visited)
  | x :: xs =>
    if (x :: xs) ∈ visited then walkFrom fs visited xs
    else if fs (x :: xs) then (some (x :: xs), (x :: xs) :: visited)
    else walkFrom fs ((x :: xs) :: visited) xs

/-- Embeds the outer `for` loop of `locate_workspace_dir` (lib.rs line
142): the candidates are walked in order, sharing one visited set. -/
def searchCandidates (fs : DirPath → Bool) :
    List DirPath → List DirPath → Option DirPath
  | _, [] => none
  | visited, c :: cs =>
    match walkFrom fs visited c with
    | (some d, _) => some d
    | (none, visited') => searchCandidates fs visited' cs

/-- Embeds `locate_workspace_dir` (lib.rs lines 129-167).  The candidate
starting directories (current dir, resource parent) are abstracted as the
`candidates` parameter; `fs d` tells whether `d/package.json` is a file. -/
def locate_workspace_dir (fs : DirPath → Bool) (candidates : List DirPath) :
    Except String DirPath :=
  match searchCandidates fs [] candidates with
  | some d => Except.ok d
  | none => Except.error ("Unable to locate workspace directory for npm")

/-- Observable outcome of one `run_full_test_suite` call: the value
returned to the caller, the run-session slot after the call, the payloads
emitted synchronously by the call, and whether `command.spawn()` was
attempted. -/
structure StartOutcome where
  result : Except String Unit
  child : Option Nat
  emitted : List TestRunPayload
  spawnAttempted : Bool

/-- Embeds the synchronous part of `run_full_test_suite` (lib.rs lines
224-251): workspace discovery runs first and its failure is returned
as-is; then the guard is checked and an occupied slot fails with the
already-running error; then the spawn oracle decides between a propagated
spawn failure and storing the child plus emitting `Started`.  Child
handles are abstracted as `Nat`; the spawn result is the `spawnRes`
oracle; mutex poisoning is not modelled. -/
def run_full_test_suite (fs : DirPath → Bool) (candidates : List DirPath)
    (spawnRes : Except String Nat) (st : Option Nat) : StartOutcome :=
  match locate_workspace_dir fs candidates with
  | Except.error e => ⟨Except.error e, st, [], false⟩
  | Except.ok _ =>
    match st with
    | some c => ⟨Except.error ("Test suite is already running"), some c, [], false⟩
    | none =>
      match spawnRes with
      | Except.error e => ⟨Except.error e, none, [], true⟩
      | Except.ok child =>
        ⟨Except.ok (), some child, [TestRunPayload.started], true⟩

/-- Observable outcome of one `cancel_full_test_suite` call: the value
returned to the caller, the run-session slot after the call, and the
handles on which `kill` was invoked. -/
structure CancelOutcome where
  result : Except String Unit
  child : Option Nat
  killed : List Nat

/-- Embeds `cancel_full_test_suite` (lib.rs lines 302-317): the handle is
taken out of the guard first (inside the short lock scope), then, only if
one was present, `kill` is called on it and its error is propagated.
`killRes` is the kill oracle; mutex poisoning is not modelled. -/
def cancel_full_test_suite (killRes : Nat → Except String Unit)
    (st : Option Nat) : CancelOutcome :=
  match st with
  | none => ⟨Except.ok (), none, []⟩
  | some c =>
    match killRes c with
    | Except.ok _ => ⟨Except.ok (), none, [c]⟩
    | Except.error e => ⟨Except.error e, none, [c]⟩

/-- Embeds the spawned consumption task of `run_full_test_suite` (lib.rs
lines 255-297): each stream event is mapped to at most one emitted
payload; `Terminated` and `Error` additionally clear the guard; the loop
itself runs until the stream ends — it has no break after a terminal
event.  Returns the emitted payloads and the final guard state. -/
def consumeLoop (st : Option Nat) :
    List CommandEvent → List TestRunPayload × Option Nat
  | [] => ([], st)
  | CommandEvent.stdout line :: rest =>
    match sanitize_line line with
    | some msg =>
      (TestRunPayload.log (classify_level LogSource.stdout msg) msg LogSource.stdout
          :: (consumeLoop st rest).1,
        (consumeLoop st rest).2)
    | none => consumeLoop st rest
  | CommandEvent.stderr line :: rest =>
    match sanitize_line line with
    | some msg =>
      (TestRunPayload.log (classify_level LogSource.stderr msg) msg LogSource.stderr
          :: (consumeLoop st rest).1,
        (consumeLoop st rest).2)
    | none => consumeLoop st rest
  | CommandEvent.terminated code :: rest =>
    (TestRunPayload.terminated code :: (consumeLoop none rest).1,
      (consumeLoop none rest).2)
  | CommandEvent.error msg :: rest =>
    (TestRunPayload.error msg :: (consumeLoop none rest).1,
      (consumeLoop none rest).2)
  | CommandEvent.other :: rest => consumeLoop st rest

/-- The full event sequence observed on the channel for an accepted run
whose process delivers `stream`: the `Started` emitted by
`run_full_test_suite` (its `emitted` field on the success path), followed
by everything the consumption task emits. -/
def runEmitted (child : Nat) (stream : List CommandEvent) : List TestRunPayload :=
  TestRunPayload.started :: (consumeLoop (some child) stream).1

/-- Stream events the source treats as terminal for a run. -/
def isTerminalEvent : CommandEvent → Bool
  | CommandEvent.terminated _ => true
  | CommandEvent.error _ => true
  | _ => false

/-- The payload the consumption task emits for a terminal stream event. -/
def terminalPayloadOf : CommandEvent → TestRunPayload
  | CommandEvent.terminated code => TestRunPayload.terminated code
  | CommandEvent.error msg => TestRunPayload.error msg
  | _ => TestRunPayload.started

/-- Whether a payload is a `Log` event. -/
def isLogPayload : TestRunPayload → Bool
  | TestRunPayload.log _ _ _ => true
  | _ => false

/-- Whether a payload is a terminal event (`Terminated` or `Error`). -/
def isTerminalPayload : TestRunPayload → Bool
  | TestRunPayload.terminated _ => true
  | TestRunPayload.error _ => true
  | _ => false

/-- Whether an emitted sequence contains no payload after its first
terminal event. -/
def noEventAfterTerminal : List TestRunPayload → Bool
  | [] => true
  | p :: rest =>
    if isTerminalPayload p then rest.isEmpty else noEventAfterTerminal rest

/-- Abstract operations of the two command handlers, used to record the
statement order of the source around the mutex. -/
inductive TraceOp
  | discoverWorkspace
  | buildCommand
  | lockAcquire
  | guardCheck
  | ioSpawn
  | storeChild
  | lockRelease
  | emitStarted
  | spawnConsumerTask
  | guardTake
  | ioKill
deriving DecidableEq

/-- Statement order of the successful path of `run_full_test_suite`
(lib.rs lines 229-255): discovery (229), command construction (231-237),
`state.child.lock()` (239), the `guard.is_some()` check (243),
`command.spawn()` (247), `*guard = Some(child)` (248), `drop(guard)`
(249), the `Started` emit (251), spawning the consumer task (255). -/
def startRunTrace : List TraceOp :=
  [TraceOp.discoverWorkspace, TraceOp.buildCommand, TraceOp.lockAcquire,
   TraceOp.guardCheck, TraceOp.ioSpawn, TraceOp.storeChild,
   TraceOp.lockRelease, TraceOp.emitStarted, TraceOp.spawnConsumerTask]

/-- Statement order of `cancel_full_test_suite` with an active child
(lib.rs lines 304-313): `state.child.lock()` (305), `guard.take()` (309),
the guard dropped at the block end (310), `child.kill()` (313). -/
def cancelRunTrace : List TraceOp :=
  [TraceOp.lockAcquire, TraceOp.guardTake, TraceOp.lockRelease, TraceOp.ioKill]

/-- The operations performed between acquiring and releasing the lock in
a trace. -/
def criticalSection (t : List TraceOp) : List TraceOp :=
  ((t.dropWhile (fun op => if op = TraceOp.lockAcquire then false else true)).drop 1).takeWhile
    (fun op => if op = TraceOp.lockRelease then false else true)

section Lemmas

/-- Decoding a byte sequence made only of CR (13) and LF (10) bytes
succeeds and yields only the characters CR and LF. -/
theorem utf8Decode_crlf (bytes : List Nat) (h : ∀ b ∈ bytes, b = 13 ∨ b = 10) :
    ∃ text, utf8Decode bytes = some text ∧ ∀ c ∈ text, c = '\r' ∨ c = '\n' := by
  unfold utf8Decode
  induction bytes with
  | nil => exact ⟨[], rfl, by simp⟩
  | cons b rest ih =>
    obtain ⟨text, hd, hall⟩ := ih (fun x hx => h x (by simp [hx]))
    have hb : b = 13 ∨ b = 10 := h b (by simp)
    refine ⟨Char.ofNat b :: text, ?_, ?_⟩
    · rcases hb with hb | hb <;> subst hb <;>
        · simp only [utf8Go]
          rw [if_pos (by norm_num), hd]
          rfl
    · intro c hc
      rcases List.mem_cons.mp hc with hc | hc
      · subst hc
        rcases hb with hb | hb <;> subst hb
        · exact Or.inl (by decide)
        · exact Or.inr (by decide)
      · exact hall c hc

/-- Trimming a text made only of CR and LF characters leaves nothing. -/
theorem trimEndCRLF_all (s : List Char) (h : ∀ c ∈ s, c = '\r' ∨ c = '\n') :
    trimEndCRLF s = [] := by
  unfold trimEndCRLF
  have : s.reverse.dropWhile (fun c => c = '\r' || c = '\n') = [] := by
    rw [List.dropWhile_eq_nil_iff]
    intro c hc
    have := h c (List.mem_reverse.mp hc)
    rcases this with hc' | hc' <;> simp [hc']
  rw [this, List.reverse_nil]

end Lemmas

/-- C3: `classify_level` sends every stderr message to `Error`; a stdout
message whose ASCII-uppercased form contains `FAIL` or `ERROR` is
`Error` (this branch wins even if `WARN` also occurs), otherwise one
containing `WARN` is `Warn`, otherwise it is `Info`. -/
theorem classify_level_spec (msg : List Char) :
    classify_level LogSource.stderr msg = LogLevel.error ∧
    ((containsSeq (msg.map asciiUpper) (['F', 'A', 'I', 'L']) = true ∨
      containsSeq (msg.map asciiUpper) (['E', 'R', 'R', 'O', 'R']) = true) →
      classify_level LogSource.stdout msg = LogLevel.error) ∧
    (containsSeq (msg.map asciiUpper) (['F', 'A', 'I', 'L']) = false →
      containsSeq (msg.map asciiUpper) (['E', 'R', 'R', 'O', 'R']) = false →
      containsSeq (msg.map asciiUpper) (['W', 'A', 'R', 'N']) = true →
      classify_level LogSource.stdout msg = LogLevel.warn) ∧
    (containsSeq (msg.map asciiUpper) (['F', 'A', 'I', 'L']) = false →
      containsSeq (msg.map asciiUpper) (['E', 'R', 'R', 'O', 'R']) = false →
      containsSeq (msg.map asciiUpper) (['W', 'A', 'R', 'N']) = false →
      classify_level LogSource.stdout msg = LogLevel.info) := by
  refine ⟨rfl, ?_, ?_, ?_⟩
  · intro h
    rcases h with h | h <;> simp [classify_level, h]
  · intro h1 h2 h3
    simp [classify_level, h1, h2, h3]
  · intro h1 h2 h3
    simp [classify_level, h1, h2, h3]

/-- C3 witness: a stdout message containing both `FAIL` and `WARN`
classifies as `Error`, the `FAIL`/`ERROR` branch being checked first. -/
theorem classify_level_spec_witness :
    classify_level LogSource.stdout (("FAIL then WARN").toList) = LogLevel.error :=
  (classify_level_spec (("FAIL then WARN").toList)).2.1 (Or.inl (by decide))

/-- C4: `sanitize_line` yields nothing on invalid UTF-8; on valid UTF-8 it
yields nothing exactly when the decoded text is empty after removing
trailing CR/LF (in particular on empty or all-CR/LF byte input), and
otherwise yields the trimmed text, which is non-empty. -/
theorem sanitize_line_spec (bytes : List Nat) :
    (utf8Decode bytes = none → sanitize_line bytes = none) ∧
    (∀ text, utf8Decode bytes = some text →
      ((trimEndCRLF text = [] → sanitize_line bytes = none) ∧
       (trimEndCRLF text ≠ [] →
         sanitize_line bytes = some (trimEndCRLF text)))) ∧
    ((∀ b ∈ bytes, b = 13 ∨ b = 10) → sanitize_line bytes = none) ∧
    (∀ out, sanitize_line bytes = some out → out ≠ []) := by
  refine ⟨?_, ?_, ?_, ?_⟩
  · intro h
    simp [sanitize_line, h]
  · intro text h
    constructor
    · intro ht
      simp [sanitize_line, h, ht]
    · intro ht
      simp [sanitize_line, h, ht]
  · intro h
    obtain ⟨text, hd, hall⟩ := utf8Decode_crlf bytes h
    simp [sanitize_line, hd, trimEndCRLF_all text hall]
  · intro out h
    unfold sanitize_line at h
    cases hd : utf8Decode bytes with
    | none => rw [hd] at h; cases h
    | some text =>
      rw [hd] at h
      by_cases hc : trimEndCRLF text = []
      · simp [hc] at h
      · simp only [hc, if_neg hc] at h
        cases h
        exact hc

/-- C4 witness: the empty input and a pure-CRLF input produce nothing,
while `"ok\r\n"` produces the non-empty trimmed line. -/
theorem sanitize_line_spec_witness :
    sanitize_line [13, 10, 10] = none ∧
    sanitize_line [111, 107, 13, 10] = some (['o', 'k']) := by
  constructor
  · exact (sanitize_line_spec [13, 10, 10]).2.2.1 (by decide)
  · have h := ((sanitize_line_spec [111, 107, 13, 10]).2.1
      (['o', 'k', '\r', '\n']) (by decide)).2 (by decide)
    rw [h]
    decide

/-- The full sequence of directories `locate_workspace_dir` walks, in
probe order: each candidate's upward chain, candidates in order. -/
def probeOrder : List DirPath → List DirPath
  | [] => []
  | c :: cs => upChain c ++ probeOrder cs

/-- `find?` over an appended list looks in the left part first. -/
theorem find?_append_first {α : Type} (p : α → Bool) (l1 l2 : List α) :
    (l1 ++ l2).find? p =
      (match l1.find? p with
       | some a => some a
       | none => l2.find? p) := by
  induction l1 with
  | nil => simp
  | cons a l1 ih =>
    by_cases h : p a
    · simp [List.find?_cons_of_pos _ h]
    · have h' : ¬ p a = true := by simp [h]
      simp only [List.cons_append, List.find?_cons_of_neg _ h', ih]

/-- The inner walk finds exactly the first directory of the upward chain
satisfying the probe, provided every already-visited directory failed it;
and if it finds nothing, every directory it marked visited failed the
probe. -/
theorem walkFrom_spec (fs : DirPath → Bool) (c : DirPath) :
    ∀ visited, (∀ v ∈ visited, fs v = false) →
      (walkFrom fs visited c).1 = (upChain c).find? fs ∧
      ((walkFrom fs visited c).1 = none →
        ∀ v ∈ (walkFrom fs visited c).2, fs v = false) := by
  induction c with
  | nil =>
    intro visited hv
    by_cases hmem : ([] : DirPath) ∈ visited
    · have hfs : fs [] = false := hv [] hmem
      constructor
      · simp [walkFrom, hmem, upChain, List.find?, hfs]
      · intro _
        simpa [walkFrom, hmem] using hv
    · by_cases hfs : fs []
      · constructor
        · simp [walkFrom, hmem, hfs, upChain, List.find?]
        · intro hnone
          exact absurd hnone (by simp [walkFrom, hmem, hfs])
      · have hfs' : fs [] = false := by simpa using hfs
        constructor
        · simp [walkFrom, hmem, hfs', upChain, List.find?]
        · intro _ v hvmem
          rcases List.mem_cons.mp (by simpa [walkFrom, hmem, hfs'] using hvmem)
            with h | h
          · subst h
            exact hfs'
          · exact hv v h
  | cons x xs ih =>
    intro visited hv
    by_cases hmem : (x :: xs : DirPath) ∈ visited
    · have hfs : fs (x :: xs) = false := hv _ hmem
      have heq : walkFrom fs visited (x :: xs) = walkFrom fs visited xs := by
        simp [walkFrom, hmem]
      obtain ⟨h1, h2⟩ := ih visited hv
      constructor
      · rw [heq, h1, upChain,
          List.find?_cons_of_neg _ (show ¬ fs (x :: xs) = true by simp [hfs])]
      · rw [heq]
        exact h2
    · by_cases hfs : fs (x :: xs)
      · have heq : walkFrom fs visited (x :: xs) =
            (some (x :: xs), (x :: xs) :: visited) := by
          simp [walkFrom, hmem, hfs]
        constructor
        · rw [heq, upChain]
          simp [List.find?_cons_of_pos _ hfs]
        · intro hnone
          exact absurd hnone (by simp [heq])
      · have hfs' : fs (x :: xs) = false := by simpa using hfs
        have hv' : ∀ v ∈ (x :: xs) :: visited, fs v = false := by
          intro v hvmem
          rcases List.mem_cons.mp hvmem with h | h
          · subst h
            exact hfs'
          · exact hv v h
        have heq : walkFrom fs visited (x :: xs) =
            walkFrom fs ((x :: xs) :: visited) xs := by
          simp [walkFrom, hmem, hfs']
        obtain ⟨h1, h2⟩ := ih ((x :: xs) :: visited) hv'
        constructor
        · rw [heq, h1, upChain,
            List.find?_cons_of_neg _ (show ¬ fs (x :: xs) = true by simp [hfs'])]
        · rw [heq]
          exact h2

/-- The outer candidate loop finds exactly the first directory in probe
order satisfying the probe, provided every already-visited directory
failed it. -/
theorem searchCandidates_spec (fs : DirPath → Bool) :
    ∀ (cs : List DirPath) (visited : List DirPath),
      (∀ v ∈ visited, fs v = false) →
      searchCandidates fs visited cs = (probeOrder cs).find? fs := by
  intro cs
  induction cs with
  | nil =>
    intro visited _
    simp [searchCandidates, probeOrder]
  | cons c cs ih =>
    intro visited hv
    obtain ⟨h1, h2⟩ := walkFrom_spec fs c visited hv
    rw [probeOrder, find?_append_first]
    cases hw : walkFrom fs visited c with
    | mk r v' =>
      rw [hw] at h1 h2
      simp only at h1 h2
      cases r with
      | some d =>
        simp [searchCandidates, hw, ← h1]
      | none =>
        rw [← h1]
        simp only [searchCandidates, hw]
        exact ih v' (h2 rfl)

/-- C8: workspace discovery is a total function of the starting
directories (each step moves to the strict parent, so every walk reaches
the root), and it returns the first directory in the upward-walk probe
order whose `package.json` probe succeeds, or the not-found error when no
directory on any candidate's chain contains the marker; a returned
directory always contains the marker. -/
theorem locate_workspace_dir_spec (fs : DirPath → Bool) (candidates : List DirPath) :
    locate_workspace_dir fs candidates =
      (match (probeOrder candidates).find? fs with
       | some d => Except.ok d
       | none =>
         Except.error ("Unable to locate workspace directory for npm")) ∧
    (∀ d, (probeOrder candidates).find? fs = some d → fs d = true) := by
  constructor
  · unfold locate_workspace_dir
    rw [searchCandidates_spec fs candidates [] (by simp)]
  · intro d hd
    exact List.find?_some hd

/-- C7: cancelling with no active run returns success, kills nothing and
leaves the session idle. -/
theorem cancel_idle_spec (killRes : Nat → Except String Unit) :
    cancel_full_test_suite killRes none = ⟨Except.ok (), none, []⟩ := rfl

/-- C6: cancelling with an active child always leaves the session idle
(the handle is taken out of the guard before the kill is attempted) and
kills exactly that child; the kill outcome, error included, is returned
to the caller. -/
theorem cancel_active_spec (killRes : Nat → Except String Unit) (c : Nat) :
    (cancel_full_test_suite killRes (some c)).child = none ∧
    (cancel_full_test_suite killRes (some c)).killed = [c] ∧
    (cancel_full_test_suite killRes (some c)).result =
      (match killRes c with
       | Except.ok _ => Except.ok ()
       | Except.error e => Except.error e) := by
  cases h : killRes c with
  | ok u => cases u; exact ⟨by simp [cancel_full_test_suite, h],
      by simp [cancel_full_test_suite, h], by simp [cancel_full_test_suite, h]⟩
  | error e => exact ⟨by simp [cancel_full_test_suite, h],
      by simp [cancel_full_test_suite, h], by simp [cancel_full_test_suite, h]⟩

/-- C5: when the guard is free but the spawn step fails, the spawn error
text is returned synchronously, no child is stored (the session stays
idle), and no event — not even `Started` — is emitted. -/
theorem start_spawn_failure_spec (fs : DirPath → Bool) (candidates : List DirPath)
    (e : String) (d : DirPath)
    (hws : locate_workspace_dir fs candidates = Except.ok d) :
    run_full_test_suite fs candidates (Except.error e) none =
      ⟨Except.error e, none, [], true⟩ := by
  unfold run_full_test_suite
  rw [hws]

/-- C5 witness: a concrete failing spawn with a succeeding discovery. -/
theorem start_spawn_failure_spec_witness :
    run_full_test_suite (fun _ => true) [[]] (Except.error ("spawn failed")) none =
      ⟨Except.error ("spawn failed"), none, [], true⟩ :=
  start_spawn_failure_spec (fun _ => true) [[]] ("spawn failed") [] rfl

/-- C10: a start request made while a run is active still performs
workspace discovery first: the caller gets the discovery error when
discovery fails and the already-running error only when discovery
succeeds; in both cases nothing is spawned, stored or emitted.  In
particular, with a filesystem containing no marker the workspace error is
returned even though the guard is occupied. -/
theorem start_discovery_first_spec (fs : DirPath → Bool) (candidates : List DirPath)
    (spawnRes : Except String Nat) (c : Nat) :
    (run_full_test_suite fs candidates spawnRes (some c)).result =
      (match locate_workspace_dir fs candidates with
       | Except.error e => Except.error e
       | Except.ok _ => Except.error ("Test suite is already running")) ∧
    (run_full_test_suite fs candidates spawnRes (some c)).spawnAttempted = false ∧
    (run_full_test_suite fs candidates spawnRes (some c)).child = some c ∧
    (run_full_test_suite fs candidates spawnRes (some c)).emitted = [] ∧
    (run_full_test_suite (fun _ => false) [[]] spawnRes (some c)).result =
      Except.error ("Unable to locate workspace directory for npm") := by
  refine ⟨?_, ?_, ?_, ?_, rfl⟩ <;>
    cases h : locate_workspace_dir fs candidates <;>
      simp [run_full_test_suite, h]

/-- C2 counterexample: with an occupied guard but a failing workspace
discovery, `run_full_test_suite` does not fail with the already-running
error — it fails with the discovery error — refuting the claim that every
start attempt while a run is active yields the already-running error. -/
theorem start_while_running_counterexample :
    (run_full_test_suite (fun _ => false) [[]] (Except.ok 1) (some 0)).result ≠
      Except.error ("Test suite is already running") ∧
    (run_full_test_suite (fun _ => false) [[]] (Except.ok 1) (some 0)).result =
      Except.error ("Unable to locate workspace directory for npm") := by
  refine ⟨?_, rfl⟩
  intro h
  exact absurd (Except.error.inj h)
    (show ¬ ("Unable to locate workspace directory for npm" =
      "Test suite is already running") by decide)

/-- C2 amended: while a handle is present the slot (an `Option`, hence
holding at most one handle in every state) is left unchanged, nothing is
spawned or emitted, and the call fails — with the already-running error
whenever workspace discovery succeeds, and with the discovery error when
discovery fails. -/
theorem start_while_running_spec (fs : DirPath → Bool) (candidates : List DirPath)
    (spawnRes : Except String Nat) (c : Nat) :
    (∀ d, locate_workspace_dir fs candidates = Except.ok d →
      run_full_test_suite fs candidates spawnRes (some c) =
        ⟨Except.error ("Test suite is already running"), some c, [], false⟩) ∧
    (∀ e, locate_workspace_dir fs candidates = Except.error e →
      run_full_test_suite fs candidates spawnRes (some c) =
        ⟨Except.error e, some c, [], false⟩) := by
  constructor
  · intro d h
    unfold run_full_test_suite
    rw [h]
  · intro e h
    unfold run_full_test_suite
    rw [h]

/-- C2 witness: a concrete occupied-guard start attempt with succeeding
discovery fails with the already-running error and has no side effects. -/
theorem start_while_running_spec_witness :
    run_full_test_suite (fun _ => true) [[]] (Except.ok 1) (some 0) =
      ⟨Except.error ("Test suite is already running"), some 0, [], false⟩ :=
  (start_while_running_spec (fun _ => true) [[]] (Except.ok 1) 0).1 [] rfl

/-- C9 counterexample: in the transcribed statement order of
`run_full_test_suite`, the `command.spawn()` I/O call lies inside the
guard's critical section — the source acquires the lock at line 239 and
drops it only at line 249, after the spawn at line 247 — refuting the
claim that the guard is never held across an I/O operation. -/
theorem guard_across_spawn_counterexample :
    TraceOp.ioSpawn ∈ criticalSection startRunTrace := by decide

/-- C9 amended: the guard of `cancel_full_test_suite` is held only for
the take (the kill happens outside the critical section), but the guard
of `run_full_test_suite` is held across the check, the spawn I/O and the
store, being released only after the handle is stored. -/
theorem critical_section_spec :
    criticalSection startRunTrace =
      [TraceOp.guardCheck, TraceOp.ioSpawn, TraceOp.storeChild] ∧
    criticalSection cancelRunTrace = [TraceOp.guardTake] ∧
    TraceOp.ioKill ∉ criticalSection cancelRunTrace := by decide

/-- If a stream ends with its only terminal event, the consumption loop
emits only `Log` payloads before the terminal payload, ends with exactly
that terminal payload, and leaves the guard cleared. -/
theorem consumeLoop_terminal_last (t : CommandEvent)
    (ht : isTerminalEvent t = true) :
    ∀ (pre : List CommandEvent) (st : Option Nat),
      (∀ e ∈ pre, isTerminalEvent e = false) →
      ∃ logs, consumeLoop st (pre ++ [t]) = (logs ++ [terminalPayloadOf t], none) ∧
        ∀ p ∈ logs, isLogPayload p = true := by
  intro pre
  induction pre with
  | nil =>
    intro st _
    refine ⟨[], ?_, by simp⟩
    rw [List.nil_append]
    cases t with
    | terminated code => simp [consumeLoop, terminalPayloadOf]
    | error msg => simp [consumeLoop, terminalPayloadOf]
    | stdout l => exact absurd ht (by simp [isTerminalEvent])
    | stderr l => exact absurd ht (by simp [isTerminalEvent])
    | other => exact absurd ht (by simp [isTerminalEvent])
  | cons e pre ih =>
    intro st hpre
    have hpre' : ∀ x ∈ pre, isTerminalEvent x = false :=
      fun x hx => hpre x (List.mem_cons_of_mem _ hx)
    cases e with
    | stdout line =>
      obtain ⟨logs, h1, h2⟩ := ih st hpre'
      cases hs : sanitize_line line with
      | none =>
        refine ⟨logs, ?_, h2⟩
        simp only [List.cons_append, consumeLoop, hs]
        exact h1
      | some msg =>
        refine ⟨TestRunPayload.log (classify_level LogSource.stdout msg) msg
          LogSource.stdout :: logs, ?_, ?_⟩
        · simp only [List.cons_append, consumeLoop, hs]
          rw [show pre.append [t] = pre ++ [t] from rfl, h1]
        · intro p hp
          rcases List.mem_cons.mp hp with hp | hp
          · subst hp
            rfl
          · exact h2 p hp
    | stderr line =>
      obtain ⟨logs, h1, h2⟩ := ih st hpre'
      cases hs : sanitize_line line with
      | none =>
        refine ⟨logs, ?_, h2⟩
        simp only [List.cons_append, consumeLoop, hs]
        exact h1
      | some msg =>
        refine ⟨TestRunPayload.log (classify_level LogSource.stderr msg) msg
          LogSource.stderr :: logs, ?_, ?_⟩
        · simp only [List.cons_append, consumeLoop, hs]
          rw [show pre.append [t] = pre ++ [t] from rfl, h1]
        · intro p hp
          rcases List.mem_cons.mp hp with hp | hp
          · subst hp
            rfl
          · exact h2 p hp
    | terminated code =>
      exact absurd (hpre _ (List.mem_cons_self _ _)) (by simp [isTerminalEvent])
    | error msg =>
      exact absurd (hpre _ (List.mem_cons_self _ _)) (by simp [isTerminalEvent])
    | other =>
      obtain ⟨logs, h1, h2⟩ := ih st hpre'
      refine ⟨logs, ?_, h2⟩
      simp only [List.cons_append, consumeLoop]
      exact h1

/-- C1 counterexample: the consumption loop of the source has no break
after a terminal event — on a stream delivering an `Error` event followed
by a `Terminated` event it emits a payload after the terminal `Error`
payload, refuting the claim that no events follow the first terminal
event and that consumption stops there. -/
theorem run_events_counterexample :
    runEmitted 5 [CommandEvent.error (['i', 'o']),
        CommandEvent.terminated (some 1)] =
      [TestRunPayload.started, TestRunPayload.error (['i', 'o']),
       TestRunPayload.terminated (some 1)] ∧
    noEventAfterTerminal (runEmitted 5 [CommandEvent.error (['i', 'o']),
        CommandEvent.terminated (some 1)]) = false :=
  ⟨by decide, by decide⟩

/-- C1 amended: provided the process event stream delivers exactly one
terminal event and delivers it last (which the loop itself does not
enforce — it consumes until the stream ends), an accepted run emits
exactly one `Started`, then zero or more `Log` payloads, then exactly the
one terminal payload, and the guard is cleared. -/
theorem run_events_shape_spec (child : Nat) (pre : List CommandEvent)
    (t : CommandEvent)
    (hpre : ∀ e ∈ pre, isTerminalEvent e = false)
    (ht : isTerminalEvent t = true) :
    ∃ logs, runEmitted child (pre ++ [t]) =
        TestRunPayload.started :: logs ++ [terminalPayloadOf t] ∧
      (∀ p ∈ logs, isLogPayload p = true) ∧
      isTerminalPayload (terminalPayloadOf t) = true ∧
      (consumeLoop (some child) (pre ++ [t])).2 = none := by
  obtain ⟨logs, h1, h2⟩ := consumeLoop_terminal_last t ht pre (some child) hpre
  refine ⟨logs, ?_, h2, ?_, ?_⟩
  · unfold runEmitted
    rw [h1]
    rfl
  · cases t with
    | terminated code => rfl
    | error msg => rfl
    | stdout l => exact absurd ht (by simp [isTerminalEvent])
    | stderr l => exact absurd ht (by simp [isTerminalEvent])
    | other => exact absurd ht (by simp [isTerminalEvent])
  · rw [h1]

/-- C1 witness: a run whose process prints one stdout line and exits with
code 0 emits `Started`, one `Log`, then the single `Terminated`. -/
theorem run_events_shape_spec_witness :
    ∃ logs, runEmitted 5 ([CommandEvent.stdout [111, 107, 10]] ++
        [CommandEvent.terminated (some 0)]) =
      TestRunPayload.started :: logs ++
        [terminalPayloadOf (CommandEvent.terminated (some 0))] ∧
      (∀ p ∈ logs, isLogPayload p = true) ∧
      isTerminalPayload (terminalPayloadOf (CommandEvent.terminated (some 0))) = true ∧
      (consumeLoop (some 5) ([CommandEvent.stdout [111, 107, 10]] ++
        [CommandEvent.terminated (some 0)])).2 = none :=
  run_events_shape_spec 5 [CommandEvent.stdout [111, 107, 10]]
    (CommandEvent.terminated (some 0)) (by decide) (by decide)

/-- C8 witness: walking up from `a/b`, the first directory containing the
marker (here: exactly the one-component directory `b`) is returned, and
it satisfies the probe. -/
theorem locate_workspace_dir_spec_witness :
    locate_workspace_dir (fun d => decide (d.length = 1)) [["a", "b"]] =
      Except.ok (["b"]) ∧
    (fun d : DirPath => decide (d.length = 1)) (["b"]) = true := by
  constructor
  · rw [(locate_workspace_dir_spec (fun d => decide (d.length = 1)) [["a", "b"]]).1]
    rfl
  · exact (locate_workspace_dir_spec (fun d => decide (d.length = 1))
      [["a", "b"]]).2 (["b"]) (by decide)
